import Mathlib

/-!
Verification development for the bitcoin-etl-airflow load DAG
(src/dags/bitcoinetl/build_load_dag.py).

The Python source is shallowly embedded: file contents are passed as
explicit parameters (file IO is abstracted away), BigQuery jobs are values
carrying their reported outcome, and the warehouse operations issued by the
enrichment procedure are recorded as an explicit trace.  Strings are
modelled as List Char where character-level scanning matters.
-/

namespace BitcoinEtl

/-- The opening curly brace character, written via its code point. -/
def lbrace : Char := Char.ofNat 123

/-- The closing curly brace character, written via its code point. -/
def rbrace : Char := Char.ofNat 125

/-! ## Parameterized Query Loader (read_file, build_load_dag.py lines 297-307) -/

/-- Semantics of the Python builtin str.replace(pat, rep): scan left to
right, replacing leftmost non-overlapping occurrences of pat by rep.
A call with an empty pattern never arises in read_file (the pattern always
contains the doubled braces), and is treated as leaving the text unchanged. -/
def pyReplace (s pat rep : List Char) : List Char :=
  match s with
  | [] => []
  | c :: rest =>
    if h : pat ≠ [] ∧ pat.isPrefixOf (c :: rest)
    then rep ++ pyReplace (List.drop pat.length (c :: rest)) pat rep
    else c :: pyReplace rest pat rep
termination_by s.length
decreasing_by
  · simp only [List.length_drop, List.length_cons]
    have hp : 0 < pat.length := List.length_pos.mpr h.1
    omega
  · simp

/-- The placeholder token built by the source expression
char-for-char: two opening braces, the key, two closing braces
(the Python format string doubles each brace to escape it). -/
def formatToken (key : List Char) : List Char :=
  lbrace :: lbrace :: key ++ [rbrace, rbrace]

/-- read_file (lines 297-307) with the file content abstracted as the
content parameter: for each key/value pair of the environment, in mapping
order, replace every occurrence of the doubly braced token of the key with
the value.  Passing environment=None in the source becomes the empty list. -/
def read_file (environment : List (List Char × List Char)) (content : List Char) : List Char :=
  environment.foldl (fun content kv => pyReplace content (formatToken kv.fst) kv.snd) content

/-- The environment mapping built in build_load_dag (lines 35-44), in the
insertion order of the Python dict literal. -/
def environment (chain destination_dataset_project_id : List Char) : List (List Char × List Char) :=
  [("dataset_name".data, chain ++ "_blockchain".data),
   ("dataset_name_raw".data, chain ++ "_blockchain_raw".data),
   ("dataset_name_temp".data, chain ++ "_blockchain_temp".data),
   ("destination_dataset_project_id".data, destination_dataset_project_id)]

/-! ## Spec-side simultaneous substitution

The spec describes substitution as replacing, in the original text, every
occurrence of each declared placeholder token with the value of its key,
leaving all other text unchanged.  The following definition follows the
words of the spec (not the source) and is used only to compare the source
substitution against the claimed semantics. -/

/-- First environment entry whose token is a prefix of the text. -/
def simSubstFind (env : List (List Char × List Char)) (s : List Char) :
    Option (List Char × List Char) :=
  env.find? (fun kv => (formatToken kv.fst).isPrefixOf s)

/-- Modelled from the spec: simultaneous every-occurrence substitution.
Scan the original text left to right; where some token of the environment
occurs, emit the corresponding value and skip the token; all other
characters are copied unchanged and emitted values are never rescanned. -/
def simSubst (env : List (List Char × List Char)) (s : List Char) : List Char :=
  match s with
  | [] => []
  | c :: rest =>
    match simSubstFind env (c :: rest) with
    | some kv => kv.snd ++ simSubst env (List.drop (formatToken kv.fst).length (c :: rest))
    | none => c :: simSubst env rest
termination_by s.length
decreasing_by
  · have htok : 0 < (formatToken kv.fst).length := by simp [formatToken]
    simp only [List.length_drop, List.length_cons]
    omega
  · simp

/-! ## Python str.format with a chain keyword (used at line 167)

The view enrichment produces its SQL by read_file with no environment
followed by .format(chain=chain).  We model the core of the Python format
scanner for a single keyword argument named chain: a doubled brace denotes
a literal brace, a braced field name is looked up (only chain is bound,
any other name raises KeyError, modelled as none), and a lone closing
brace or an unterminated field raises (none).  Format conversions and
format specs do not occur in this pipeline and are not modelled. -/

/-- Scanner state for pyFormatGo. -/
inductive FmtState where
  | text
  | afterOpen
  | afterClose
  | fieldName (acc : List Char)
deriving DecidableEq

/-- One pass of the format scanner; structurally recursive on the text. -/
def pyFormatGo (chain : List Char) (st : FmtState) : List Char → Option (List Char)
  | [] => match st with
    | FmtState.text => some []
    | _ => none
  | c :: rest =>
    match st with
    | FmtState.text =>
      if c = lbrace then pyFormatGo chain FmtState.afterOpen rest
      else if c = rbrace then pyFormatGo chain FmtState.afterClose rest
      else (pyFormatGo chain FmtState.text rest).map (fun out => c :: out)
    | FmtState.afterOpen =>
      if c = lbrace then (pyFormatGo chain FmtState.text rest).map (fun out => lbrace :: out)
      else if c = rbrace then none
      else pyFormatGo chain (FmtState.fieldName [c]) rest
    | FmtState.afterClose =>
      if c = rbrace then (pyFormatGo chain FmtState.text rest).map (fun out => rbrace :: out)
      else none
    | FmtState.fieldName acc =>
      if c = rbrace then
        if acc = "chain".data then (pyFormatGo chain FmtState.text rest).map (fun out => chain ++ out)
        else none
      else pyFormatGo chain (FmtState.fieldName (acc ++ [c])) rest

/-- content.format(chain=chain) as used by enrich_view. -/
def pyFormatChain (chain content : List Char) : Option (List Char) :=
  pyFormatGo chain FmtState.text content

/-! ## The three SQL-producing call sites -/

/-- SQL submitted by enrich_table (line 142): read_file with the
environment. -/
def enrich_table_sql (env : List (List Char × List Char)) (content : List Char) : List Char :=
  read_file env content

/-- SQL submitted by add_verify_tasks (line 217): read_file with the
environment. -/
def verify_sql (env : List (List Char × List Char)) (content : List Char) : List Char :=
  read_file env content

/-- View query installed by enrich_view (line 167): read_file with no
environment argument (so environment defaults to the empty mapping),
followed by Python format substitution of the chain keyword. -/
def enrich_view_sql (chain : List Char) (content : List Char) : Option (List Char) :=
  pyFormatChain chain (read_file [] content)

/-! ## Schema Loader (read_bigquery_schema_from_json_recursive, lines 310-333)

A parsed JSON field object: each key that the source reads with .get is an
Option (absent key gives none), and nested fields are an optional list of
field objects.  Python treats an absent fields key and an empty fields
list identically (both are falsy), but both are representable here. -/

/-- A JSON field object as consumed by the schema loader. -/
inductive JsonField where
  | mk : (name : Option (List Char)) → (type : Option (List Char)) →
         (mode : Option (List Char)) → (description : Option (List Char)) →
         (fields : Option (List JsonField)) → JsonField

/-- Name slot of a field object. -/
def JsonField.jname : JsonField → Option (List Char)
  | .mk n _ _ _ _ => n

/-- Type slot of a field object. -/
def JsonField.jtype : JsonField → Option (List Char)
  | .mk _ t _ _ _ => t

/-- Mode slot of a field object. -/
def JsonField.jmode : JsonField → Option (List Char)
  | .mk _ _ m _ _ => m

/-- Description slot of a field object. -/
def JsonField.jdescription : JsonField → Option (List Char)
  | .mk _ _ _ d _ => d

/-- Nested fields slot of a field object. -/
def JsonField.jfields : JsonField → Option (List JsonField)
  | .mk _ _ _ _ f => f

/-- A google.cloud.bigquery SchemaField as constructed by the loader:
name and description are passed through as-is (possibly absent), the type
and mode are the strings passed to the constructor, and fields is the
(possibly empty) list of child schema fields. -/
inductive SchemaField where
  | mk : (name : Option (List Char)) → (field_type : List Char) →
         (mode : List Char) → (description : Option (List Char)) →
         (fields : List SchemaField) → SchemaField

/-- Name of a schema field. -/
def SchemaField.sname : SchemaField → Option (List Char)
  | .mk n _ _ _ _ => n

/-- Type of a schema field. -/
def SchemaField.field_type : SchemaField → List Char
  | .mk _ t _ _ _ => t

/-- Mode of a schema field. -/
def SchemaField.smode : SchemaField → List Char
  | .mk _ _ m _ _ => m

/-- Description of a schema field. -/
def SchemaField.sdescription : SchemaField → Option (List Char)
  | .mk _ _ _ d _ => d

/-- Children of a schema field (empty when none were passed). -/
def SchemaField.sfields : SchemaField → List SchemaField
  | .mk _ _ _ _ f => f

/-- Python str.lower restricted to its ASCII behaviour, which is all the
loader relies on (the type strings are ASCII). -/
def pyLower (s : List Char) : List Char :=
  s.map Char.toLower

/-- read_bigquery_schema_from_json_recursive (lines 310-333).  The for
loop over the list is the list recursion.  For each field object: the
source first evaluates field.get(type).lower(), which raises
AttributeError when the type key is absent (None has no lower method) —
modelled as Except.error; when the lowered type equals record and the
fields value is truthy (present and non-empty) the children are the
recursive parse of the nested list, otherwise the field is terminal with
no children.  Mode defaults to NULLABLE; the STRING default for the type
is unreachable because the type was already dereferenced. -/
def read_bigquery_schema_from_json_recursive :
    List JsonField → Except (List Char) (List SchemaField)
  | [] => Except.ok []
  | JsonField.mk name type mode description fields :: rest =>
    match type with
    | none => Except.error "AttributeError: NoneType object has no attribute lower".data
    | some t =>
      match fields with
      | some (f :: fs) =>
        if pyLower t = "record".data then
          match read_bigquery_schema_from_json_recursive (f :: fs),
                read_bigquery_schema_from_json_recursive rest with
          | Except.ok children, Except.ok tail =>
              Except.ok (SchemaField.mk name t (mode.getD "NULLABLE".data) description children :: tail)
          | Except.error e, _ => Except.error e
          | _, Except.error e => Except.error e
        else
          match read_bigquery_schema_from_json_recursive rest with
          | Except.ok tail =>
              Except.ok (SchemaField.mk name t (mode.getD "NULLABLE".data) description [] :: tail)
          | Except.error e => Except.error e
      | _ =>
        match read_bigquery_schema_from_json_recursive rest with
        | Except.ok tail =>
            Except.ok (SchemaField.mk name t (mode.getD "NULLABLE".data) description [] :: tail)
        | Except.error e => Except.error e

/-! ## Staged Materialization Procedure (enrich_table / enrich_view, lines 109-198)

The warehouse operations issued by one execution are recorded as a trace.
Each BigQuery job value carries the outcome the warehouse reports for it:
whether job.result() raises, the job.errors list (None or a list), and
the terminal job.state string. -/

/-- A BigQuery table reference: client.dataset(ds).table(t) gives project
none (the client default project); client.dataset(ds, project=p).table(t)
gives project some p. -/
structure TableRef where
  project : Option (List Char)
  dataset : List Char
  table : List Char
deriving DecidableEq

/-- The kind of warehouse operation issued. -/
inductive OpKind where
  | createTable
  | queryWrite
  | copyTable
  | deleteTable
deriving DecidableEq

/-- One warehouse operation: its kind, the table it writes (target), the
table it reads from where applicable, and whether it was submitted with
write disposition WRITE_TRUNCATE. -/
structure Op where
  kind : OpKind
  target : TableRef
  source : Option TableRef
  writeTruncate : Bool
deriving DecidableEq

/-- The outcome a BigQuery job reports: whether result() raises, the
errors attribute (None or a list of error strings), and the state string
observed after completion. -/
structure BqJob where
  resultRaises : Bool
  errors : Option (List (List Char))
  state : List Char
deriving DecidableEq

/-- submit_bigquery_job (lines 279-288): wait via job.result(), which
raises when the job failed; then assert that job.errors is None or empty;
any exception is logged and re-raised. -/
def submit_bigquery_job (job : BqJob) : Except (List Char) Unit :=
  if job.resultRaises then Except.error "job.result raised".data
  else
    match job.errors with
    | none => Except.ok ()
    | some es =>
      if es = [] then Except.ok ()
      else Except.error "AssertionError: job.errors not empty".data

/-- Dataset names fixed in build_load_dag (lines 35-37). -/
def dataset_name (chain : List Char) : List Char := chain ++ "_blockchain".data

/-- Temp dataset name (line 37). -/
def dataset_name_temp (chain : List Char) : List Char := chain ++ "_blockchain_temp".data

/-- Temporary table name generated at line 118/162:
task underscore millisecond-timestamp. -/
def temp_table_name (task : List Char) (milliseconds : Nat) : List Char :=
  task ++ [Char.ofNat 95] ++ (toString milliseconds).data

/-- Temporary table reference (lines 119/163): temp dataset in the client
default project. -/
def temp_table_ref (chain task : List Char) (milliseconds : Nat) : TableRef :=
  { project := none, dataset := dataset_name_temp chain, table := temp_table_name task milliseconds }

/-- Destination table reference (lines 151-152/186-187): the chain dataset
in the destination project, table named after the task. -/
def dest_table_ref (chain destination_dataset_project_id task : List Char) : TableRef :=
  { project := some destination_dataset_project_id, dataset := dataset_name chain, table := task }

/-- enrich_table (lines 113-158) as a trace-producing execution.  Inputs:
the identifier the warehouse reports for the created table (asserted to
equal the generated temporary name at line 134), and the outcomes of the
query job and the copy job.  Output: the list of warehouse operations that
were issued before the procedure returned or raised, and the overall
outcome (ok, or the first error raised). -/
def enrich_table (chain destination_dataset_project_id task : List Char) (milliseconds : Nat)
    (createdTableId : List Char) (queryJob copyJob : BqJob) :
    List Op × Except (List Char) Unit :=
  let tempRef := temp_table_ref chain task milliseconds
  let destRef := dest_table_ref chain destination_dataset_project_id task
  let createOp : Op := { kind := OpKind.createTable, target := tempRef, source := none, writeTruncate := false }
  let queryOp : Op := { kind := OpKind.queryWrite, target := tempRef, source := none, writeTruncate := false }
  let copyOp : Op := { kind := OpKind.copyTable, target := destRef, source := some tempRef, writeTruncate := true }
  let deleteOp : Op := { kind := OpKind.deleteTable, target := tempRef, source := none, writeTruncate := false }
  if createdTableId ≠ temp_table_name task milliseconds then
    ([createOp], Except.error "AssertionError: table_id".data)
  else
    match submit_bigquery_job queryJob with
    | Except.error e => ([createOp, queryOp], Except.error e)
    | Except.ok () =>
      if queryJob.state ≠ "DONE".data then
        ([createOp, queryOp], Except.error "AssertionError: query state".data)
      else
        match submit_bigquery_job copyJob with
        | Except.error e => ([createOp, queryOp, copyOp], Except.error e)
        | Except.ok () =>
          if copyJob.state ≠ "DONE".data then
            ([createOp, queryOp, copyOp], Except.error "AssertionError: copy state".data)
          else
            ([createOp, queryOp, copyOp, deleteOp], Except.ok ())

/-- enrich_view (lines 160-193): same staging, but the temporary table is
created as a view (no separate population query job), then copied with
WRITE_TRUNCATE and deleted. -/
def enrich_view (chain destination_dataset_project_id task : List Char) (milliseconds : Nat)
    (createdTableId : List Char) (copyJob : BqJob) :
    List Op × Except (List Char) Unit :=
  let tempRef := temp_table_ref chain task milliseconds
  let destRef := dest_table_ref chain destination_dataset_project_id task
  let createOp : Op := { kind := OpKind.createTable, target := tempRef, source := none, writeTruncate := false }
  let copyOp : Op := { kind := OpKind.copyTable, target := destRef, source := some tempRef, writeTruncate := true }
  let deleteOp : Op := { kind := OpKind.deleteTable, target := tempRef, source := none, writeTruncate := false }
  if createdTableId ≠ temp_table_name task milliseconds then
    ([createOp], Except.error "AssertionError: table_id".data)
  else
    match submit_bigquery_job copyJob with
    | Except.error e => ([createOp, copyOp], Except.error e)
    | Except.ok () =>
      if copyJob.state ≠ "DONE".data then
        ([createOp, copyOp], Except.error "AssertionError: copy state".data)
      else
        ([createOp, copyOp, deleteOp], Except.ok ())

/-! ## Task Graph Builder (build_load_dag, lines 27-276)

Each Airflow task is a node with its task_id and the task_ids of its
declared upstream dependencies (the edges created by the right-shift
operator and the dependencies arguments). -/

/-- A task node of the constructed DAG. -/
structure TaskNode where
  id : String
  deps : List String
deriving DecidableEq

/-- The task graph constructed by build_load_dag for a given chain, in
construction order.  add_load_tasks contributes a wait sensor and a load
operator with an edge sensor-to-load (lines 67-107); add_enrich_tasks and
add_verify_tasks add an edge from every listed dependency (lines 207-209,
223-225); the transactions_fees verification is skipped for dogecoin
(line 247) and the two empty-count verifications for zcash (line 257). -/
def build_load_dag (chain : String) : List TaskNode :=
  [{ id := "wait_latest_blocks", deps := [] },
   { id := "load_blocks", deps := ["wait_latest_blocks"] },
   { id := "wait_latest_transactions", deps := [] },
   { id := "load_transactions", deps := ["wait_latest_transactions"] },
   { id := "enrich_blocks", deps := ["load_blocks"] },
   { id := "enrich_transactions", deps := ["load_transactions"] },
   { id := "enrich_inputs", deps := ["enrich_transactions"] },
   { id := "enrich_outputs", deps := ["enrich_transactions"] },
   { id := "verify_blocks_count", deps := ["enrich_blocks"] },
   { id := "verify_blocks_have_latest", deps := ["enrich_blocks"] },
   { id := "verify_transactions_count", deps := ["enrich_blocks", "enrich_transactions"] },
   { id := "verify_transactions_have_latest", deps := ["enrich_transactions"] }]
  ++ (if chain ≠ "dogecoin" then
        [{ id := "verify_transactions_fees", deps := ["enrich_transactions"] }]
      else [])
  ++ [{ id := "verify_coinbase_transactions_count", deps := ["enrich_blocks", "enrich_transactions"] },
      { id := "verify_transaction_inputs_count", deps := ["enrich_transactions"] },
      { id := "verify_transaction_outputs_count", deps := ["enrich_transactions"] }]
  ++ (if chain ≠ "zcash" then
        [{ id := "verify_transaction_inputs_count_empty", deps := ["enrich_transactions"] },
         { id := "verify_transaction_outputs_count_empty", deps := ["enrich_transactions"] }]
      else [])

/-- Declared dependencies of a task id in a graph (empty when absent). -/
def depsOf (tasks : List TaskNode) (id : String) : List String :=
  match tasks.find? (fun t => t.id = id) with
  | some t => t.deps
  | none => []

/-- A chain of dependency edges followed upstream: each element after the
first is a declared dependency of its predecessor. -/
def isDepChain (tasks : List TaskNode) : List String → Prop
  | [] => True
  | [_] => True
  | a :: b :: rest => b ∈ depsOf tasks a ∧ isDepChain tasks (b :: rest)

/-! ## Orchestrator and sensor model

Modelled from the spec: the Airflow scheduler and the object-storage
sensor are external collaborators, not code of this repository.  Spec
sections 5 and 6: a task with a dependency edge runs only after all of its
declared dependencies have completed successfully; the object-storage wait
sensor polls at a fixed interval (60 seconds) up to a fixed overall
timeout (3600 seconds, lines 71-72 of the source fix these numbers) and
succeeds only if the expected file is present at some poll within the
timeout window. -/

/-- Modelled from the spec: one scheduled run of the DAG, as the set of
tasks the orchestrator started and the set that completed successfully. -/
structure DagRun where
  executed : String → Bool
  succeeded : String → Bool

/-- Modelled from the spec: a run is compliant with a task graph when
success implies execution and no task is started before every declared
dependency has succeeded. -/
def Compliant (tasks : List TaskNode) (r : DagRun) : Prop :=
  (∀ id, r.succeeded id = true → r.executed id = true) ∧
  (∀ t ∈ tasks, r.executed t.id = true → ∀ d ∈ t.deps, r.succeeded d = true)

/-- Modelled from the spec: the wait sensor succeeds exactly when the file
is present at some poll instant (multiples of the poke interval) within
the overall timeout. -/
def sensorSucceeds (timeout pokeInterval : Nat) (present : Nat → Bool) : Bool :=
  (List.range (timeout / pokeInterval + 1)).any (fun k => present (k * pokeInterval))

/-- Task ids of the constructed graph. -/
def taskIds (chain : String) : List String :=
  (build_load_dag chain).map TaskNode.id

/-! ## Theorems -/

/-- C3: the claim says a field whose type key is absent is parsed with
type STRING rather than failing.  The code dereferences field.get(type)
with .lower() before the STRING default can apply, so a field object
without a type key makes the loader raise AttributeError.  This theorem
evaluates the embedded loader at such a field object. -/
theorem missing_type_key_raises :
    read_bigquery_schema_from_json_recursive
        [JsonField.mk (some "x".data) none none none none]
      = Except.error "AttributeError: NoneType object has no attribute lower".data := by
  simp [read_bigquery_schema_from_json_recursive]

/-- C10: a field object whose type is RECORD but whose nested-fields list
is absent or empty parses without failure and without recursion, giving a
terminal schema field of type RECORD with no children (and the default
NULLABLE mode when the mode key is absent). -/
theorem record_without_nested_fields_is_terminal
    (name mode description : Option (List Char)) :
    read_bigquery_schema_from_json_recursive
        [JsonField.mk name (some "RECORD".data) mode description none]
      = Except.ok [SchemaField.mk name "RECORD".data (mode.getD "NULLABLE".data) description []] ∧
    read_bigquery_schema_from_json_recursive
        [JsonField.mk name (some "RECORD".data) mode description (some [])]
      = Except.ok [SchemaField.mk name "RECORD".data (mode.getD "NULLABLE".data) description []] := by
  constructor <;> simp [read_bigquery_schema_from_json_recursive]

/-- C5: the transactions_fees verification is in the graph exactly when
the chain is not dogecoin, the two empty-count verifications exactly when
the chain is not zcash, and the remaining eight verification tasks are
present for every chain. -/
theorem chain_conditional_verify_tasks (chain : String) :
    (("verify_transactions_fees" ∈ taskIds chain) ↔ chain ≠ "dogecoin") ∧
    (("verify_transaction_inputs_count_empty" ∈ taskIds chain) ↔ chain ≠ "zcash") ∧
    (("verify_transaction_outputs_count_empty" ∈ taskIds chain) ↔ chain ≠ "zcash") ∧
    "verify_blocks_count" ∈ taskIds chain ∧
    "verify_blocks_have_latest" ∈ taskIds chain ∧
    "verify_transactions_count" ∈ taskIds chain ∧
    "verify_transactions_have_latest" ∈ taskIds chain ∧
    "verify_coinbase_transactions_count" ∈ taskIds chain ∧
    "verify_transaction_inputs_count" ∈ taskIds chain ∧
    "verify_transaction_outputs_count" ∈ taskIds chain := by
  by_cases hd : chain = "dogecoin"
  · subst hd; decide
  · by_cases hz : chain = "zcash"
    · subst hz; decide
    · simp [taskIds, build_load_dag, hd, hz]

/-- Helper: the declared dependencies of the inputs enrichment, for every
chain. -/
lemma depsOf_enrich_inputs (chain : String) :
    depsOf (build_load_dag chain) "enrich_inputs" = ["enrich_transactions"] := by
  by_cases hd : chain = "dogecoin"
  · subst hd; decide
  · by_cases hz : chain = "zcash"
    · subst hz; decide
    · simp [depsOf, build_load_dag, hd, hz, List.find?]

/-- Helper: the declared dependencies of the outputs enrichment, for every
chain. -/
lemma depsOf_enrich_outputs (chain : String) :
    depsOf (build_load_dag chain) "enrich_outputs" = ["enrich_transactions"] := by
  by_cases hd : chain = "dogecoin"
  · subst hd; decide
  · by_cases hz : chain = "zcash"
    · subst hz; decide
    · simp [depsOf, build_load_dag, hd, hz, List.find?]

/-- Helper: the declared dependencies of the blocks load task, for every
chain. -/
lemma depsOf_load_blocks (chain : String) :
    depsOf (build_load_dag chain) "load_blocks" = ["wait_latest_blocks"] := by
  by_cases hd : chain = "dogecoin"
  · subst hd; decide
  · by_cases hz : chain = "zcash"
    · subst hz; decide
    · simp [depsOf, build_load_dag, hd, hz, List.find?]

/-- Helper: the declared dependencies of the transactions load task, for
every chain. -/
lemma depsOf_load_transactions (chain : String) :
    depsOf (build_load_dag chain) "load_transactions" = ["wait_latest_transactions"] := by
  by_cases hd : chain = "dogecoin"
  · subst hd; decide
  · by_cases hz : chain = "zcash"
    · subst hz; decide
    · simp [depsOf, build_load_dag, hd, hz, List.find?]

/-- C8: the inputs and outputs enrichment tasks each declare exactly one
dependency, the transactions enrichment, so no load task is a direct
dependency of either, and every upstream dependency chain from one of them
that ends at a load task passes through the transactions enrichment. -/
theorem inputs_outputs_depend_only_on_transactions (chain : String) :
    depsOf (build_load_dag chain) "enrich_inputs" = ["enrich_transactions"] ∧
    depsOf (build_load_dag chain) "enrich_outputs" = ["enrich_transactions"] ∧
    "load_blocks" ∉ depsOf (build_load_dag chain) "enrich_inputs" ∧
    "load_transactions" ∉ depsOf (build_load_dag chain) "enrich_inputs" ∧
    "load_blocks" ∉ depsOf (build_load_dag chain) "enrich_outputs" ∧
    "load_transactions" ∉ depsOf (build_load_dag chain) "enrich_outputs" ∧
    (∀ p : List String, isDepChain (build_load_dag chain) p →
      (p.head? = some "enrich_inputs" ∨ p.head? = some "enrich_outputs") →
      (p.getLast? = some "load_blocks" ∨ p.getLast? = some "load_transactions") →
      "enrich_transactions" ∈ p) := by
  have hi := depsOf_enrich_inputs chain
  have ho := depsOf_enrich_outputs chain
  refine ⟨hi, ho, by simp [hi], by simp [hi], by simp [ho], by simp [ho], ?_⟩
  intro p hchain hhead hlast
  match p, hchain, hhead, hlast with
  | [], _, hhead, _ => simp at hhead
  | [a], _, hhead, hlast =>
    rcases hhead with h | h <;> rcases hlast with h2 | h2 <;>
      simp_all
  | a :: b :: rest, hchain, hhead, _ =>
    have hb : b ∈ depsOf (build_load_dag chain) a := hchain.1
    have ha : a = "enrich_inputs" ∨ a = "enrich_outputs" := by
      rcases hhead with h | h <;> simp at h <;> [left; right] <;> exact h
    have hbt : b = "enrich_transactions" := by
      rcases ha with h | h <;> subst h
      · rw [hi] at hb; simpa using hb
      · rw [ho] at hb; simpa using hb
    subst hbt
    simp

/-- C9: for each of the two load tasks, its wait sensor is a declared
dependency of the load task, and in every orchestrator-compliant run in
which the expected file never appears within the fixed 3600-second
timeout, the load task is never started, so the load job is never
submitted. -/
theorem load_waits_for_sensor (chain : String) (present : Nat → Bool) (r : DagRun)
    (w l : String)
    (hwl : (w, l) = ("wait_latest_blocks", "load_blocks") ∨
           (w, l) = ("wait_latest_transactions", "load_transactions"))
    (hc : Compliant (build_load_dag chain) r)
    (hs : r.succeeded w = true → sensorSucceeds 3600 60 present = true)
    (hnever : ∀ t, t ≤ 3600 → present t = false) :
    w ∈ depsOf (build_load_dag chain) l ∧
    r.executed l = false := by
  have hpair : (w = "wait_latest_blocks" ∧ l = "load_blocks") ∨
      (w = "wait_latest_transactions" ∧ l = "load_transactions") := by
    rcases hwl with h | h
    · left; exact ⟨congrArg Prod.fst h, congrArg Prod.snd h⟩
    · right; exact ⟨congrArg Prod.fst h, congrArg Prod.snd h⟩
  have hdep : w ∈ depsOf (build_load_dag chain) l := by
    rcases hpair with ⟨hw, hl⟩ | ⟨hw, hl⟩ <;> subst hw <;> subst hl
    · simp [depsOf_load_blocks]
    · simp [depsOf_load_transactions]
  refine ⟨hdep, ?_⟩
  by_contra hex
  have hex : r.executed l = true := by
    cases h : r.executed l with
    | false => exact absurd h hex
    | true => rfl
  have hmem : (TaskNode.mk l [w]) ∈ build_load_dag chain := by
    rcases hpair with ⟨hw, hl⟩ | ⟨hw, hl⟩ <;> subst hw <;> subst hl <;>
      simp [build_load_dag]
  have hwait : r.succeeded w = true := hc.2 _ hmem hex w (by simp)
  have hsens := hs hwait
  simp only [sensorSucceeds, List.any_eq_true, List.mem_range] at hsens
  obtain ⟨k, hk, hp⟩ := hsens
  have hk60 : k * 60 ≤ 3600 := by omega
  rw [hnever (k * 60) hk60] at hp
  exact Bool.false_ne_true hp

/-- Witness for load_waits_for_sensor: the run that starts nothing, with a
file that never appears, is compliant, and in it the load task is indeed
never started. -/
theorem load_waits_for_sensor_witness :
    "wait_latest_blocks" ∈ depsOf (build_load_dag "bitcoin") "load_blocks" ∧
    (DagRun.mk (fun _ => false) (fun _ => false)).executed "load_blocks" = false :=
  load_waits_for_sensor "bitcoin" (fun _ => false) (DagRun.mk (fun _ => false) (fun _ => false))
    "wait_latest_blocks" "load_blocks"
    (Or.inl rfl)
    ⟨fun id h => by simp at h, fun t _ h => by simp at h⟩
    (fun h => by simp at h)
    (fun t _ => rfl)

/-- Witness for inputs_outputs_depend_only_on_transactions: the concrete
chain of dependency edges from the inputs enrichment down to the
transactions load contains the transactions enrichment. -/
theorem inputs_outputs_depend_only_on_transactions_witness :
    "enrich_transactions" ∈ ["enrich_inputs", "enrich_transactions", "load_transactions"] :=
  (inputs_outputs_depend_only_on_transactions "bitcoin").2.2.2.2.2.2
    ["enrich_inputs", "enrich_transactions", "load_transactions"]
    (by refine ⟨?_, ?_, trivial⟩ <;> decide)
    (by left; rfl)
    (by right; rfl)

/-- A job outcome with no reported errors and terminal state DONE. -/
def doneJob : BqJob := { resultRaises := false, errors := none, state := "DONE".data }

/-- Helper: the temporary table reference never equals the destination
table reference (the temporary table lives in the client default project
while the destination carries an explicit project, and the datasets
differ). -/
lemma temp_ne_dest (chain p task : List Char) (ms : Nat) :
    temp_table_ref chain task ms ≠ dest_table_ref chain p task := by
  simp [temp_table_ref, dest_table_ref, TableRef.mk.injEq]

/-- C1: in both table mode and view mode, every issued operation whose
target is the externally visible destination table is the WRITE_TRUNCATE
copy (the create step and the population query target only the temporary
table), at most one such operation occurs in any execution, and in a
successful execution exactly one does. -/
theorem destination_mutated_only_by_copy
    (chain p task cid : List Char) (ms : Nat) (qj cj : BqJob) :
    ((enrich_table chain p task ms cid qj cj).1.filter
        (fun op => op.target = dest_table_ref chain p task)).all
        (fun op => op.kind = OpKind.copyTable ∧ op.writeTruncate = true) = true ∧
    ((enrich_table chain p task ms cid qj cj).1.filter
        (fun op => op.target = dest_table_ref chain p task)).length ≤ 1 ∧
    ((enrich_table chain p task ms (temp_table_name task ms) doneJob doneJob).1.filter
        (fun op => op.target = dest_table_ref chain p task)).length = 1 ∧
    ((enrich_view chain p task ms cid cj).1.filter
        (fun op => op.target = dest_table_ref chain p task)).all
        (fun op => op.kind = OpKind.copyTable ∧ op.writeTruncate = true) = true ∧
    ((enrich_view chain p task ms cid cj).1.filter
        (fun op => op.target = dest_table_ref chain p task)).length ≤ 1 ∧
    ((enrich_view chain p task ms (temp_table_name task ms) doneJob).1.filter
        (fun op => op.target = dest_table_ref chain p task)).length = 1 := by
  have hne := temp_ne_dest chain p task ms
  unfold enrich_table enrich_view
  refine ⟨?_, ?_, ?_, ?_, ?_, ?_⟩ <;>
    · repeat' split
      all_goals simp_all [submit_bigquery_job, doneJob, hne]

/-- C2: in both modes the temporary table deletion is issued exactly in
the executions whose outcome is success; the creation of the temporary
table is issued in every execution; and the successful execution issues
the delete strictly after the copy (the full trace in order is create,
query, copy, delete for table mode). -/
theorem temp_deleted_only_after_successful_copy
    (chain p task cid : List Char) (ms : Nat) (qj cj : BqJob) :
    (((enrich_table chain p task ms cid qj cj).1.any
        (fun op => op.kind = OpKind.deleteTable)) = true
      ↔ (enrich_table chain p task ms cid qj cj).2 = Except.ok ()) ∧
    ((enrich_table chain p task ms cid qj cj).1.any
        (fun op => op.kind = OpKind.createTable)) = true ∧
    (((enrich_view chain p task ms cid cj).1.any
        (fun op => op.kind = OpKind.deleteTable)) = true
      ↔ (enrich_view chain p task ms cid cj).2 = Except.ok ()) ∧
    ((enrich_view chain p task ms cid cj).1.any
        (fun op => op.kind = OpKind.createTable)) = true ∧
    enrich_table chain p task ms (temp_table_name task ms) doneJob doneJob =
      ([{ kind := OpKind.createTable, target := temp_table_ref chain task ms,
          source := none, writeTruncate := false },
        { kind := OpKind.queryWrite, target := temp_table_ref chain task ms,
          source := none, writeTruncate := false },
        { kind := OpKind.copyTable, target := dest_table_ref chain p task,
          source := some (temp_table_ref chain task ms), writeTruncate := true },
        { kind := OpKind.deleteTable, target := temp_table_ref chain task ms,
          source := none, writeTruncate := false }], Except.ok ()) := by
  unfold enrich_table enrich_view
  refine ⟨?_, ?_, ?_, ?_, ?_⟩ <;>
    · repeat' split
      all_goals simp_all [submit_bigquery_job, doneJob]

/-- Helper: a placeholder token is never empty. -/
lemma formatToken_ne_nil (k : List Char) : formatToken k ≠ [] := by
  simp [formatToken]

/-- Helper: pyReplace on the empty text. -/
lemma pyReplace_nil (pat rep : List Char) : pyReplace [] pat rep = [] := by
  simp [pyReplace]

/-- Helper: pyReplace when the pattern matches at the head. -/
lemma pyReplace_cons_pos {pat : List Char} (c : Char) (rest rep : List Char)
    (h : pat ≠ [] ∧ pat.isPrefixOf (c :: rest)) :
    pyReplace (c :: rest) pat rep
      = rep ++ pyReplace (List.drop pat.length (c :: rest)) pat rep := by
  rw [pyReplace, dif_pos h]

/-- Helper: pyReplace when the pattern does not match at the head. -/
lemma pyReplace_cons_neg {pat : List Char} (c : Char) (rest rep : List Char)
    (h : ¬(pat ≠ [] ∧ pat.isPrefixOf (c :: rest))) :
    pyReplace (c :: rest) pat rep = c :: pyReplace rest pat rep := by
  rw [pyReplace, dif_neg h]

/-- Helper: replacing a non-empty pattern inside exactly itself yields the
replacement. -/
lemma pyReplace_self (pat rep : List Char) (h : pat ≠ []) :
    pyReplace pat pat rep = rep := by
  cases pat with
  | nil => exact absurd rfl h
  | cons c rest =>
    rw [pyReplace_cons_pos c rest rep ⟨h, by simp [List.isPrefixOf_iff_prefix]⟩]
    simp [pyReplace_nil]

/-- Helper: a text without an opening brace contains no placeholder token,
so pyReplace with a token pattern leaves it unchanged. -/
lemma pyReplace_no_lbrace (s k rep : List Char) (h : lbrace ∉ s) :
    pyReplace s (formatToken k) rep = s := by
  induction s with
  | nil => exact pyReplace_nil _ _
  | cons c rest ih =>
    have hc : c ≠ lbrace := fun hc => h (hc ▸ List.mem_cons_self c rest)
    have hnp : ¬(formatToken k).isPrefixOf (c :: rest) = true := by
      simp [formatToken, List.isPrefixOf]
      intro hcl
      exact absurd hcl.symm hc
    rw [pyReplace_cons_neg c rest rep (fun hcon => hnp hcon.2)]
    rw [ih (fun hm => h (List.mem_cons_of_mem c hm))]

/-- Helper: simSubst on the empty text. -/
lemma simSubst_nil (env : List (List Char × List Char)) : simSubst env [] = [] := by
  simp [simSubst]

/-- Helper: simSubst when some token matches at the head. -/
lemma simSubst_cons_found (env : List (List Char × List Char)) (c : Char) (rest : List Char)
    (kv : List Char × List Char) (h : simSubstFind env (c :: rest) = some kv) :
    simSubst env (c :: rest)
      = kv.snd ++ simSubst env (List.drop (formatToken kv.fst).length (c :: rest)) := by
  rw [simSubst, h]

/-- Helper: simSubst when no token matches at the head. -/
lemma simSubst_cons_none (env : List (List Char × List Char)) (c : Char) (rest : List Char)
    (h : simSubstFind env (c :: rest) = none) :
    simSubst env (c :: rest) = c :: simSubst env rest := by
  rw [simSubst, h]

/-- Helper: simSubstFind on a single-entry environment. -/
lemma simSubstFind_single (k v s : List Char) :
    simSubstFind [(k, v)] s
      = if (formatToken k).isPrefixOf s then some (k, v) else none := by
  cases hp : (formatToken k).isPrefixOf s <;> simp [simSubstFind, List.find?, hp]

/-- Helper: for a single-key environment, sequential replacement and
simultaneous substitution agree on every text (both scan left to right,
replace the leftmost occurrence and never rescan the emitted value). -/
lemma pyReplace_eq_simSubst_single (k v : List Char) :
    ∀ (n : Nat) (c : List Char), c.length ≤ n →
      pyReplace c (formatToken k) v = simSubst [(k, v)] c := by
  intro n
  induction n with
  | zero =>
    intro c hc
    have hnil : c = [] := List.eq_nil_of_length_eq_zero (Nat.le_zero.mp hc)
    subst hnil
    rw [pyReplace_nil, simSubst_nil]
  | succ n ih =>
    intro c hc
    cases c with
    | nil => rw [pyReplace_nil, simSubst_nil]
    | cons h t =>
      have htok : 0 < (formatToken k).length := by simp [formatToken]
      cases hp : (formatToken k).isPrefixOf (h :: t) with
      | true =>
        rw [pyReplace_cons_pos h t v ⟨formatToken_ne_nil k, hp⟩,
            simSubst_cons_found _ _ _ _ (by rw [simSubstFind_single, if_pos hp])]
        congr 1
        apply ih
        simp only [List.length_drop, List.length_cons] at *
        omega
      | false =>
        rw [pyReplace_cons_neg h t v (fun hcon => by rw [hp] at hcon; exact Bool.false_ne_true hcon.2),
            simSubst_cons_none _ _ _ (by rw [simSubstFind_single, if_neg (by simp [hp])])]
        congr 1
        apply ih
        simp only [List.length_cons] at hc
        omega

/-- Helper: the format scanner copies a brace-free prefix verbatim. -/
lemma pyFormatGo_text_bracefree (chain : List Char) (s rest : List Char)
    (h : ∀ c ∈ s, c ≠ lbrace ∧ c ≠ rbrace) :
    pyFormatGo chain FmtState.text (s ++ rest)
      = (pyFormatGo chain FmtState.text rest).map (fun out => s ++ out) := by
  induction s with
  | nil =>
    cases hres : pyFormatGo chain FmtState.text rest <;> simp [hres]
  | cons c cs ih =>
    have hc := h c (List.mem_cons_self c cs)
    have ihh := ih (fun d hd => h d (List.mem_cons_of_mem c hd))
    have step : pyFormatGo chain FmtState.text ((c :: cs) ++ rest)
        = (pyFormatGo chain FmtState.text (cs ++ rest)).map (fun out => c :: out) := by
      simp only [List.cons_append, pyFormatGo, if_neg hc.1, if_neg hc.2]
      rfl
    rw [step, ihh, Option.map_map]
    cases pyFormatGo chain FmtState.text rest <;> simp [Function.comp]

/-- Helper: the format scanner turns a doubly braced token into the singly
braced text, for any brace-free key; in particular no environment value is
substituted by the view-mode path. -/
lemma pyFormatChain_token (chain k : List Char)
    (h : ∀ c ∈ k, c ≠ lbrace ∧ c ≠ rbrace) :
    pyFormatChain chain (formatToken k) = some (lbrace :: (k ++ [rbrace])) := by
  have hrl : rbrace ≠ lbrace := by decide
  have hend : pyFormatGo chain FmtState.text [rbrace, rbrace] = some [rbrace] := by
    simp [pyFormatGo, hrl]
  unfold pyFormatChain formatToken
  simp only [pyFormatGo, if_pos rfl, List.append_eq]
  rw [pyFormatGo_text_bracefree chain k [rbrace, rbrace] h, hend]
  simp

/-- C4 counterexample: the view-mode SQL is not produced by Environment
substitution.  On a file consisting of the dataset_name placeholder token,
Environment substitution yields the dataset name, while the view path
(read_file with no environment, then Python format with the chain keyword)
collapses the doubled braces to a singly braced literal instead. -/
theorem view_sql_not_environment_substituted :
    enrich_view_sql "bitcoin".data (formatToken "dataset_name".data)
      ≠ some (read_file (environment "bitcoin".data "proj".data)
                (formatToken "dataset_name".data)) := by
  have h1 : enrich_view_sql "bitcoin".data (formatToken "dataset_name".data)
      = some (lbrace :: ("dataset_name".data ++ [rbrace])) :=
    pyFormatChain_token "bitcoin".data "dataset_name".data (by decide)
  have h2 : read_file (environment "bitcoin".data "proj".data)
      (formatToken "dataset_name".data) = "bitcoin".data ++ "_blockchain".data := by
    simp only [read_file, environment, List.foldl]
    rw [pyReplace_self _ _ (formatToken_ne_nil _)]
    rw [pyReplace_no_lbrace ("bitcoin".data ++ "_blockchain".data)
          "dataset_name_raw".data _ (by decide)]
    rw [pyReplace_no_lbrace ("bitcoin".data ++ "_blockchain".data)
          "dataset_name_temp".data _ (by decide)]
    rw [pyReplace_no_lbrace ("bitcoin".data ++ "_blockchain".data)
          "destination_dataset_project_id".data _ (by decide)]
  rw [h1, h2]
  decide

/-- C4 amended: the table-mode enrichment query and every verification
query are produced by the same Environment substitution of their SQL
file; the view-mode query is not Environment-substituted: it is the raw
file content (read_file with the empty environment) passed through Python
format substitution of the chain keyword, under which an Environment
placeholder token comes out as a singly braced literal rather than the
value of its key. -/
theorem sql_substitution_sites (env : List (List Char × List Char))
    (content chain : List Char) :
    enrich_table_sql env content = read_file env content ∧
    verify_sql env content = read_file env content ∧
    enrich_view_sql chain content = pyFormatChain chain content ∧
    (∀ k, (∀ c ∈ k, c ≠ lbrace ∧ c ≠ rbrace) →
      enrich_view_sql chain (formatToken k) = some (lbrace :: (k ++ [rbrace]))) :=
  ⟨rfl, rfl, rfl, fun k hk => pyFormatChain_token chain k hk⟩

/-- Witness for sql_substitution_sites: the dataset_name placeholder token
passes through the view path as a singly braced literal. -/
theorem sql_substitution_sites_witness :
    enrich_view_sql "bitcoin".data (formatToken "dataset_name".data)
      = some (lbrace :: ("dataset_name".data ++ [rbrace])) :=
  (sql_substitution_sites [] [] "bitcoin".data).2.2.2 "dataset_name".data (by decide)

/-- Environment exhibiting substitution-order interference: the value of
the first key is the placeholder token of the second. -/
def interferingEnv : List (List Char × List Char) :=
  [("a".data, formatToken "b".data), ("b".data, "X".data)]

/-- C6 counterexample: sequential per-key replacement is not the
simultaneous every-occurrence substitution described by the claim.  With
the interfering environment, the loader rewrites the token of key a to
the token of key b and then rewrites that to X, whereas replacing every
original occurrence of each key token with its value and leaving all
other text unchanged yields the token of key b. -/
theorem sequential_substitution_differs_from_simultaneous :
    read_file interferingEnv (formatToken "a".data)
      ≠ simSubst interferingEnv (formatToken "a".data) := by
  have h1 : read_file interferingEnv (formatToken "a".data) = "X".data := by
    simp only [read_file, interferingEnv, List.foldl]
    rw [pyReplace_self _ _ (formatToken_ne_nil _)]
    rw [pyReplace_self _ _ (formatToken_ne_nil _)]
  have hfind : simSubstFind interferingEnv (formatToken "a".data)
      = some ("a".data, formatToken "b".data) := by
    simp [simSubstFind, interferingEnv, List.find?, formatToken, lbrace, rbrace,
      List.isPrefixOf]
  have h2 : simSubst interferingEnv (formatToken "a".data) = formatToken "b".data := by
    rw [show formatToken "a".data = lbrace :: (lbrace :: "a".data ++ [rbrace, rbrace])
          from rfl] at hfind
    rw [show formatToken "a".data = lbrace :: (lbrace :: "a".data ++ [rbrace, rbrace])
          from rfl]
    rw [simSubst_cons_found _ _ _ _ hfind]
    norm_num [formatToken, simSubst_nil]
  rw [h1, h2]
  decide

/-- C6 amended: substituting the empty environment is the identity on the
content, and for a single-key environment the loader replaces every
occurrence of that key token with its value and leaves all other text
unchanged (it coincides with the simultaneous substitution); with several
keys the replacements are applied sequentially in environment order, so a
value containing another key token is substituted again. -/
theorem substitution_empty_env_and_single_key (k v c : List Char) :
    read_file [] c = c ∧
    read_file [(k, v)] c = simSubst [(k, v)] c := by
  refine ⟨rfl, ?_⟩
  simp only [read_file, List.foldl]
  exact pyReplace_eq_simSubst_single k v c.length c le_rfl

/-- C7: a successful parse returns exactly one schema field per input
field object, in input order at every depth (the field at each index keeps
the name of the input field at that index), and a field whose lowered type
is record with a present non-empty nested list gets as children exactly
the recursive parse of that nested list. -/
theorem schema_parse_preserves_shape (js : List JsonField) :
    ∀ ss : List SchemaField,
      read_bigquery_schema_from_json_recursive js = Except.ok ss →
      ss.length = js.length ∧
      (∀ i (hi : i < js.length) (hs : i < ss.length),
        (ss.get ⟨i, hs⟩).sname = (js.get ⟨i, hi⟩).jname ∧
        ((js.get ⟨i, hi⟩).jtype.map pyLower = some "record".data →
          ∀ f fs, (js.get ⟨i, hi⟩).jfields = some (f :: fs) →
            ∃ cs, read_bigquery_schema_from_json_recursive (f :: fs) = Except.ok cs ∧
              (ss.get ⟨i, hs⟩).sfields = cs)) := by
  induction js with
  | nil =>
    intro ss hok
    simp only [read_bigquery_schema_from_json_recursive, Except.ok.injEq] at hok
    subst hok
    exact ⟨rfl, fun i hi hs => absurd hi (by simp)⟩
  | cons j rest ih =>
    intro ss hok
    obtain ⟨n, t, m, d, f⟩ := j
    cases t with
    | none =>
      simp only [read_bigquery_schema_from_json_recursive] at hok
      exact (Except.noConfusion hok)
    | some tv =>
      cases f with
      | none =>
        cases hrest : read_bigquery_schema_from_json_recursive rest with
        | error e =>
          simp only [read_bigquery_schema_from_json_recursive, hrest] at hok
          exact (Except.noConfusion hok)
        | ok tail =>
          simp only [read_bigquery_schema_from_json_recursive, hrest,
            Except.ok.injEq] at hok
          subst hok
          obtain ⟨hlen, hidx⟩ := ih tail hrest
          refine ⟨by simp [hlen], ?_⟩
          intro i hi hs
          cases i with
          | zero =>
            refine ⟨by simp [List.get, SchemaField.sname, JsonField.jname], ?_⟩
            intro _ f2 fs2 hf
            simp [List.get, JsonField.jfields] at hf
          | succ i2 =>
            have hi2 : i2 < rest.length := by simpa using hi
            have hs2 : i2 < tail.length := by simpa using hs
            exact hidx i2 hi2 hs2
      | some l =>
        cases l with
        | nil =>
          cases hrest : read_bigquery_schema_from_json_recursive rest with
          | error e =>
            simp only [read_bigquery_schema_from_json_recursive, hrest] at hok
            exact (Except.noConfusion hok)
          | ok tail =>
            simp only [read_bigquery_schema_from_json_recursive, hrest,
              Except.ok.injEq] at hok
            subst hok
            obtain ⟨hlen, hidx⟩ := ih tail hrest
            refine ⟨by simp [hlen], ?_⟩
            intro i hi hs
            cases i with
            | zero =>
              refine ⟨by simp [List.get, SchemaField.sname, JsonField.jname], ?_⟩
              intro _ f2 fs2 hf
              simp [List.get, JsonField.jfields] at hf
            | succ i2 =>
              have hi2 : i2 < rest.length := by simpa using hi
              have hs2 : i2 < tail.length := by simpa using hs
              exact hidx i2 hi2 hs2
        | cons g gs =>
          by_cases hrecord : pyLower tv = "record".data
          · cases hrec : read_bigquery_schema_from_json_recursive (g :: gs) with
            | error e =>
              simp only [read_bigquery_schema_from_json_recursive, if_pos hrecord,
                hrec] at hok
              exact (Except.noConfusion hok)
            | ok children =>
              cases hrest : read_bigquery_schema_from_json_recursive rest with
              | error e =>
                simp only [read_bigquery_schema_from_json_recursive, if_pos hrecord,
                  hrec, hrest] at hok
                exact (Except.noConfusion hok)
              | ok tail =>
                simp only [read_bigquery_schema_from_json_recursive, if_pos hrecord,
                  hrec, hrest, Except.ok.injEq] at hok
                subst hok
                obtain ⟨hlen, hidx⟩ := ih tail hrest
                refine ⟨by simp [hlen], ?_⟩
                intro i hi hs
                cases i with
                | zero =>
                  refine ⟨by simp [List.get, SchemaField.sname, JsonField.jname], ?_⟩
                  intro _ f2 fs2 hf
                  simp only [List.get, JsonField.jfields, Option.some.injEq] at hf
                  injection hf with hf1 hf2
                  subst hf1
                  subst hf2
                  exact ⟨children, hrec, by simp [List.get, SchemaField.sfields]⟩
                | succ i2 =>
                  have hi2 : i2 < rest.length := by simpa using hi
                  have hs2 : i2 < tail.length := by simpa using hs
                  exact hidx i2 hi2 hs2
          · cases hrest : read_bigquery_schema_from_json_recursive rest with
            | error e =>
              simp only [read_bigquery_schema_from_json_recursive, if_neg hrecord,
                hrest] at hok
              exact (Except.noConfusion hok)
            | ok tail =>
              simp only [read_bigquery_schema_from_json_recursive, if_neg hrecord,
                hrest, Except.ok.injEq] at hok
              subst hok
              obtain ⟨hlen, hidx⟩ := ih tail hrest
              refine ⟨by simp [hlen], ?_⟩
              intro i hi hs
              cases i with
              | zero =>
                refine ⟨by simp [List.get, SchemaField.sname, JsonField.jname], ?_⟩
                intro hmap f2 fs2 hf
                have hmap2 : pyLower tv = "record".data := by
                  simpa [List.get, JsonField.jtype] using hmap
                exact absurd hmap2 hrecord
              | succ i2 =>
                have hi2 : i2 < rest.length := by simpa using hi
                have hs2 : i2 < tail.length := by simpa using hs
                exact hidx i2 hi2 hs2

/-- A two-level schema description used as a concrete instance. -/
def demoSchemaJson : List JsonField :=
  [JsonField.mk (some "outer".data) (some "RECORD".data) (some "REPEATED".data) none
    (some [JsonField.mk (some "inner".data) (some "STRING".data) none none none]),
   JsonField.mk (some "plain".data) (some "INTEGER".data) none none none]

/-- The parse of demoSchemaJson. -/
def demoSchemaParsed : List SchemaField :=
  [SchemaField.mk (some "outer".data) "RECORD".data "REPEATED".data none
    [SchemaField.mk (some "inner".data) "STRING".data "NULLABLE".data none []],
   SchemaField.mk (some "plain".data) "INTEGER".data "NULLABLE".data none []]

/-- Witness for schema_parse_preserves_shape: the demo input parses
successfully and the theorem gives the length preservation and the head
name preservation at that input. -/
theorem schema_parse_preserves_shape_witness :
    demoSchemaParsed.length = demoSchemaJson.length ∧
    (demoSchemaParsed.get ⟨0, by simp [demoSchemaParsed]⟩).sname
      = (demoSchemaJson.get ⟨0, by simp [demoSchemaJson]⟩).jname := by
  have hok : read_bigquery_schema_from_json_recursive demoSchemaJson
      = Except.ok demoSchemaParsed := by
    simp [demoSchemaJson, demoSchemaParsed, read_bigquery_schema_from_json_recursive,
      pyLower]
  have h := schema_parse_preserves_shape demoSchemaJson demoSchemaParsed hok
  exact ⟨h.1, (h.2 0 (by simp [demoSchemaJson]) (by simp [demoSchemaParsed])).1⟩

end BitcoinEtl
